import Mathlib

/-!
Shallow embedding of the trdrhub frontend upload/validation components.

Sources embedded:
- `src/lcopilot/frontend/src/components/UploadBox.tsx` (validateFile, handleFile)
- `src/lcopilot/frontend/src/components/FileUploader.tsx` (validateFile, handleFiles, removeFile)
- `src/lcopilot/frontend/src/hooks/useApi.ts` (Job, ValidationResult, useJob refetch interval)
- `src/unnamed/part_002` (API type declarations: Finding)
- `src/lcopilot/frontend/src/pages/ExporterResults.tsx` (issue filtering)

JavaScript `File` objects are modelled as records of the fields the code
reads: `name`, `size`, `type` (the browser-declared MIME string, called
`mime` here) plus the raw `bytes`, which none of the embedded functions
ever read (this is load-bearing for the content-sniffing claims).
-/

/-- A browser `File` as seen by the upload components: the fields the code
reads (`name`, `size`, `type`) plus the underlying bytes. -/
structure FileData where
  name : String
  size : Nat
  mime : String
  bytes : List Nat
deriving DecidableEq, Repr

namespace UploadBox

/-- The `maxSize` / `acceptedTypes` props of `UploadBox`. -/
structure Config where
  maxSize : Nat
  acceptedTypes : List String
deriving DecidableEq, Repr

/-- Prop defaults: `maxSize = 10 * 1024 * 1024`,
`acceptedTypes = ['.pdf', '.jpg', '.jpeg', '.png', '.json']`. -/
def defaultConfig : Config :=
  { maxSize := 10 * 1024 * 1024
    acceptedTypes := [".pdf", ".jpg", ".jpeg", ".png", ".json"] }

end UploadBox

/-- JS `String.prototype.split` with a one-character separator, over the
character list.  Always returns a non-empty list; `''.split(c)` is `['']`. -/
def jsSplitOnChar (sep : Char) : List Char → List (List Char)
  | [] => [[]]
  | c :: rest =>
      match jsSplitOnChar sep rest with
      | [] => [[]]
      | h :: t => if c = sep then [] :: h :: t else (c :: h) :: t

/-- `` `.${file.name.split('.').pop()?.toLowerCase()}` `` — the lowercased
text after the last dot of the filename, with a dot prepended.  On a name
without a dot, JS `split` yields the whole name as its single component. -/
def fileExtension (name : String) : String :=
  match (jsSplitOnChar '.' name.data).reverse with
  | [] => "."
  | last :: _ => "." ++ String.mk (last.map Char.toLower)

/-- The `mimeTypes` table of `UploadBox.validateFile`. -/
def mimeTypes : String → Option String
  | ".pdf" => some "application/pdf"
  | ".jpg" => some "image/jpeg"
  | ".jpeg" => some "image/jpeg"
  | ".png" => some "image/png"
  | ".json" => some "application/json"
  | _ => none

/-- JS `expectedMime.split('/')[1]` — the part after the first slash. -/
def mimeSubtype (m : String) : String :=
  String.mk (((jsSplitOnChar '/' m.data).drop 1).headD [])

/-- `listStartsWith l pat`: `pat` is an initial segment of `l`. -/
def listStartsWith : List Char → List Char → Bool
  | _, [] => true
  | [], _ :: _ => false
  | a :: as, p :: ps => a = p && listStartsWith as ps

/-- `listContainsSeg l pat`: `pat` occurs contiguously somewhere in `l`. -/
def listContainsSeg : List Char → List Char → Bool
  | [], pat => pat.isEmpty
  | l@(_ :: rest), pat => listStartsWith l pat || listContainsSeg rest pat

/-- JS `s.includes(sub)`: `sub` occurs as a contiguous substring of `s`. -/
def strIncludes (s sub : String) : Bool :=
  listContainsSeg s.data sub.data

namespace UploadBox

/-- The size-limit rejection message (the numeric part is
`maxSize / (1024 * 1024)`; integer division coincides with the JS float
division whenever `maxSize` is a whole number of megabytes, as the
default is). -/
def sizeLimitMessage (cfg : Config) : String :=
  "File size exceeds " ++ (toString (cfg.maxSize / (1024 * 1024)) ++ "MB limit")

/-- The unaccepted-extension rejection message. -/
def typeNotSupportedMessage (cfg : Config) : String :=
  "File type not supported. Accepted: " ++ String.intercalate ", " cfg.acceptedTypes

/-- The declared-MIME mismatch rejection message. -/
def contentMismatchMessage : String :=
  "File content does not match extension"

/-- `UploadBox.validateFile` (UploadBox.tsx lines 22-49): size check, then
extension allow-list check, then a check that the browser-declared MIME
string (`file.type`) contains the expected MIME subtype for the extension.
Returns `''` on acceptance, the first failing check's message otherwise. -/
def validateFile (cfg : Config) (f : FileData) : String :=
  if f.size > cfg.maxSize then
    sizeLimitMessage cfg
  else
    let extension := fileExtension f.name
    if !(cfg.acceptedTypes.contains extension) then
      typeNotSupportedMessage cfg
    else
      match mimeTypes extension with
      | some expectedMime =>
          if !(strIncludes f.mime (mimeSubtype expectedMime)) then
            contentMismatchMessage
          else ""
      | none => ""

/-- The extension allow-list check in isolation. -/
def typeOk (cfg : Config) (f : FileData) : Bool :=
  cfg.acceptedTypes.contains (fileExtension f.name)

/-- The declared-MIME check in isolation: vacuously true when the
`mimeTypes` table has no entry for the extension (JS `expectedMime &&`). -/
def mimeOk (f : FileData) : Bool :=
  match mimeTypes (fileExtension f.name) with
  | some expectedMime => strIncludes f.mime (mimeSubtype expectedMime)
  | none => true

end UploadBox

namespace UploadBox

/-- The observable outcome of one `UploadBox.handleFile` call:
the `error` state set, the `file` state set, and the argument passed to
the `onFileSelect` callback (none when it was not invoked). -/
structure HandleFileResult where
  error : String
  file : Option FileData
  forwarded : Option FileData
deriving DecidableEq, Repr

/-- `UploadBox.handleFile` (UploadBox.tsx lines 51-65): on a validation
error, sets the error, clears the selected file and returns without
calling `onFileSelect`; otherwise clears the error, stores the file and
forwards it to `onFileSelect`.  JS truthiness of the error string is
non-emptiness (the rejection messages are never empty). -/
def handleFile (cfg : Config) (selectedFile : FileData) : HandleFileResult :=
  let validationError := validateFile cfg selectedFile
  if validationError ≠ "" then
    { error := validationError, file := none, forwarded := none }
  else
    { error := "", file := some selectedFile, forwarded := some selectedFile }

end UploadBox

namespace FileUploader

/-- The `maxFiles` / `maxSize` / `acceptedTypes` props of `FileUploader`
(defaults: 5 files, 10 MB, `['.pdf', '.jpg', '.jpeg', '.png', '.json']`). -/
structure Config where
  maxFiles : Nat
  maxSize : Nat
  acceptedTypes : List String
deriving DecidableEq, Repr

/-- The prop defaults of `FileUploader`. -/
def defaultConfig : Config :=
  { maxFiles := 5
    maxSize := 10 * 1024 * 1024
    acceptedTypes := [".pdf", ".jpg", ".jpeg", ".png", ".json"] }

/-- `FileUploader.validateFile` (FileUploader.tsx lines 28-39): size check
then extension allow-list check; `null` (`none`) on acceptance.  Unlike
`UploadBox.validateFile` there is no MIME comparison, and the messages are
prefixed with the file name.  (`Math.round(maxSize / (1024*1024))`
coincides with Nat division for whole-megabyte sizes such as the
default.) -/
def validateFile (cfg : Config) (f : FileData) : Option String :=
  if f.size > cfg.maxSize then
    some (f.name ++ (": File size exceeds " ++
      (toString (cfg.maxSize / (1024 * 1024)) ++ "MB limit")))
  else
    let extension := fileExtension f.name
    if !(cfg.acceptedTypes.contains extension) then
      some (f.name ++ (": File type not supported. Accepted: " ++
        String.intercalate ", " cfg.acceptedTypes))
    else
      none

/-- A file held in `FileUploader` state: the underlying file plus the
generated `id` (`` `${file.name}-${Date.now()}-${Math.random()}` ``; the
clock/randomness is abstracted as the `mkId` parameter below). -/
structure FUFile where
  file : FileData
  id : String
deriving DecidableEq, Repr

/-- JS `Array.prototype.slice(0, stop)`: a negative `stop` counts from the
end of the array, clamped at zero. -/
def jsSliceTo (stop : Int) (l : List FileData) : List FileData :=
  if 0 ≤ stop then l.take stop.toNat
  else l.take ((l.length : Int) + stop).toNat

/-- The observable outcome of one `FileUploader.handleFiles` call: the new
`files` state, the argument passed to `onFilesSelect` (none when not
invoked), and the new `errors` state. -/
structure HandleFilesResult where
  files : List FUFile
  callback : Option (List FUFile)
  errors : List String
deriving DecidableEq, Repr

/-- `FileUploader.handleFiles` (FileUploader.tsx lines 41-69): slices the
incoming drop down to the remaining capacity `maxFiles - files.length`
BEFORE validating (excess files are discarded without an error), validates
each kept file, appends the valid ones to the current list, and invokes
`onFilesSelect` with the updated list only when at least one new file was
valid.  `mkId` abstracts the `Date.now()`/`Math.random()` id generation. -/
def handleFiles (cfg : Config) (mkId : FileData → String)
    (files : List FUFile) (newFiles : List FileData) : HandleFilesResult :=
  let currentFileCount := files.length
  let newFileArray := jsSliceTo ((cfg.maxFiles : Int) - (currentFileCount : Int)) newFiles
  let validFiles : List FUFile :=
    (newFileArray.filter fun f => (validateFile cfg f).isNone).map fun f =>
      { file := f, id := mkId f }
  let newErrors : List String := newFileArray.filterMap fun f => validateFile cfg f
  if validFiles.length > 0 then
    let updatedFiles := files ++ validFiles
    { files := updatedFiles, callback := some updatedFiles, errors := newErrors }
  else
    { files := files, callback := none, errors := newErrors }

/-- `FileUploader.removeFile` (FileUploader.tsx lines 100-107): drops every
file whose id equals the given id; the updated list is both the new state
and the `onFilesSelect` argument. -/
def removeFile (files : List FUFile) (fileId : String) : List FUFile :=
  files.filter fun f => f.id ≠ fileId

/-- One user interaction with `FileUploader`: a drop/browse of files, or a
click on a remove button. -/
inductive FUOp
  | handle (incoming : List FileData)
  | remove (fileId : String)

/-- The `files` state after one interaction. -/
def stepFU (cfg : Config) (mkId : FileData → String)
    (files : List FUFile) : FUOp → List FUFile
  | .handle incoming => (handleFiles cfg mkId files incoming).files
  | .remove fileId => removeFile files fileId

/-- The `files` state after a sequence of interactions starting from the
initial empty list (`useState([])`). -/
def runFU (cfg : Config) (mkId : FileData → String) (ops : List FUOp) : List FUFile :=
  ops.foldl (stepFU cfg mkId) []

end FileUploader

namespace UseApi

/-- The `Job` interface of useApi.ts (lines 12-18).  The `status` field is
declared as the union `'pending' | 'processing' | 'completed' | 'failed'`;
it is carried here as the raw string the polling code compares against,
with the declared union captured by `statusDeclared`. -/
structure Job where
  jobId : String
  status : String
  createdAt : String
deriving DecidableEq, Repr

/-- The members of the declared `Job['status']` union. -/
def statusDeclared : List String := ["pending", "processing", "completed", "failed"]

/-- The `refetchInterval` function of `useJob` (useApi.ts lines 128-134):
stop polling (`false`, here `none`) when the fetched job's status is
`'completed'` or `'failed'`; otherwise poll every
`options?.refetchInterval ?? 2000` milliseconds. -/
def refetchInterval (data : Option Job) (optInterval : Option Nat) : Option Nat :=
  let st := data.map Job.status
  if st = some "completed" ∨ st = some "failed" then none
  else some (optInterval.getD 2000)

/-- The terminal-status set asserted by the specification:
{completed, failed, needs_manual_review}. -/
def specTerminalStatuses : List String := ["completed", "failed", "needs_manual_review"]

/-- The issue severity union of `ValidationResult` (useApi.ts lines 26-32):
`'low' | 'medium' | 'high' | 'critical'`. -/
inductive IssueSeverity
  | low
  | medium
  | high
  | critical
deriving DecidableEq, Repr

/-- The string carried by each `IssueSeverity` member. -/
def IssueSeverity.str : IssueSeverity → String
  | .low => "low"
  | .medium => "medium"
  | .high => "high"
  | .critical => "critical"

/-- One element of `ValidationResult.results.issues` (useApi.ts). -/
structure Issue where
  severity : IssueSeverity
  category : String
  description : String
  recommendation : String
  affectedDocuments : List String
deriving DecidableEq, Repr

end UseApi

namespace ApiTypes

/-- The Finding severity union declared in the API types module
(src/unnamed/part_002, lines 46-55): `'critical' | 'warning' | 'info'`. -/
inductive FindingSeverity
  | critical
  | warning
  | info
deriving DecidableEq, Repr

/-- The string carried by each `FindingSeverity` member. -/
def FindingSeverity.str : FindingSeverity → String
  | .critical => "critical"
  | .warning => "warning"
  | .info => "info"

/-- The `Finding` interface of the API types module (src/unnamed/part_002):
id, category, severity, field, expected, actual, description, optional
UCP reference. -/
structure Finding where
  id : String
  category : String
  severity : FindingSeverity
  affectedField : String
  expected : String
  actual : String
  description : String
  ucpReference : Option String
deriving DecidableEq, Repr

/-- The four-level severity set asserted by the specification for
Findings: critical, high, medium, low. -/
def fourLevelSeveritySet : List String := ["critical", "high", "medium", "low"]

/-- A well-typed Finding of the API types module whose severity is
`'warning'` — legal for the declared union, outside the four-level set. -/
def warningFinding : Finding :=
  { id := "f-1"
    category := "amount"
    severity := .warning
    affectedField := "lc_amount"
    expected := "100000"
    actual := "95000"
    description := "invoice total below LC amount"
    ucpReference := none }

end ApiTypes

namespace ExporterResults

open UseApi

/-- The high-priority filter of ExporterResults.tsx (lines 85-87):
`issue.severity === 'critical' || issue.severity === 'high'`. -/
def isHighPriority (issue : Issue) : Bool :=
  issue.severity = .critical || issue.severity = .high

/-- `highPriorityIssues` (ExporterResults.tsx lines 85-87). -/
def highPriorityIssues (issues : List Issue) : List Issue :=
  issues.filter isHighPriority

/-- `displayedIssues` (ExporterResults.tsx line 89):
`showAllIssues ? results.results.issues : highPriorityIssues`. -/
def displayedIssues (showAllIssues : Bool) (issues : List Issue) : List Issue :=
  if showAllIssues then issues else highPriorityIssues issues

end ExporterResults

namespace OCROrchestrator

/-- Modelled from the spec: the OCROrchestrator and its daily spend
counter are part of the backend pipeline core, which is not among the
sources under src/ (only the frontend and design documents are).  Spec
§4.2/§5: the secondary engine may be attempted "only if the day's spend
ceiling has not been reached", and the counter's increment-and-check is a
single atomic action ("checked-and-incremented under a lock or via an
atomic compare-and-swap"), so a concurrent execution is an arbitrary
interleaving — i.e. an arbitrary sequence — of these atomic steps.
`trySecondary` is one atomic step: it returns the new counter value and
whether the secondary engine was invoked. -/
def trySecondary (ceiling spend cost : Nat) : Nat × Bool :=
  if spend < ceiling then (spend + cost, true) else (spend, false)

/-- Modelled from the spec: the day's recorded spend after an arbitrary
interleaving of atomic secondary-engine attempts with the given costs,
starting from a counter reset to zero at the day boundary. -/
def runDay (ceiling : Nat) (costs : List Nat) : Nat :=
  costs.foldl (fun s c => (trySecondary ceiling s c).1) 0

end OCROrchestrator

/-- Modelled from the spec: the byte-level content signature ("magic
number") sniffing the spec requires of the file-type guardrail check, for
the PDF case — a PDF begins with the four bytes `%PDF`.  No sniffing code
exists anywhere under src/; this definition only serves to state what the
frontend check does NOT look at. -/
def sniffsAsPdf (bytes : List Nat) : Bool :=
  bytes.take 4 = [0x25, 0x50, 0x44, 0x46]

/-- A well-formed small PDF upload: accepted by every guardrail check. -/
def fileOkPdf : FileData :=
  { name := "doc.pdf", size := 4, mime := "application/pdf", bytes := [0x25, 0x50, 0x44, 0x46] }

/-- An upload over the 10 MB default size limit. -/
def fileTooBig : FileData :=
  { name := "big.pdf", size := 20 * 1024 * 1024, mime := "application/pdf", bytes := [] }

/-- An upload that is both over the size limit and of an unaccepted
extension: exercises check masking. -/
def fileTooBigBadType : FileData :=
  { name := "big.exe", size := 20 * 1024 * 1024, mime := "application/octet-stream", bytes := [] }

/-- An upload with an unaccepted extension only. -/
def fileBadType : FileData :=
  { name := "doc.exe", size := 4, mime := "application/octet-stream", bytes := [] }

/-- An upload whose declared MIME type contradicts its extension. -/
def fileBadMime : FileData :=
  { name := "doc.pdf", size := 4, mime := "image/png", bytes := [] }

/-- A `.pdf` upload whose declared MIME type says pdf but whose actual
bytes are not a PDF signature: the frontend accepts it. -/
def fileFakePdf : FileData :=
  { name := "doc.pdf", size := 4, mime := "application/pdf", bytes := [0, 0, 0, 0] }

/-- Two PNG uploads identical in name, size and declared MIME type but
with different bytes. -/
def filePngA : FileData :=
  { name := "img.png", size := 7, mime := "image/png", bytes := [1] }

/-- See `filePngA`. -/
def filePngB : FileData :=
  { name := "img.png", size := 7, mime := "image/png", bytes := [2] }

/-- The list `FileUploader.handleFiles` passes to `onFilesSelect` when the
empty state receives `[fileBadType, fileOkPdf]` with name-based ids. -/
def c4Payload : List FileUploader.FUFile :=
  [{ file := fileOkPdf, id := "doc.pdf" }]

/-- A concrete interaction sequence with `FileUploader`. -/
def c9Ops : List FileUploader.FUOp :=
  [.handle [fileOkPdf, fileBadType, fileTooBig], .remove "doc.pdf"]

/-- A concrete issue list for the results page. -/
def c10Issues : List UseApi.Issue :=
  [{ severity := .low, category := "format", description := "d1",
     recommendation := "r1", affectedDocuments := ["doc-1"] },
   { severity := .critical, category := "amount", description := "d2",
     recommendation := "r2", affectedDocuments := ["doc-1", "doc-2"] }]

/-!  Theorems.  -/

theorem str_data_append (p q : String) : (p ++ q).data = p.data ++ q.data := by
  cases p
  cases q
  rfl

theorem str_append_ne_empty (p q : String) (h : p.data ≠ []) : p ++ q ≠ "" := by
  intro hc
  have hd : p.data ++ q.data = [] := by
    have h2 := congrArg String.data hc
    rwa [str_data_append] at h2
  exact h (List.append_eq_nil.mp hd).1

theorem str_append_empty (p : String) : p ++ "" = p := by
  cases p
  exact congrArg String.mk (List.append_nil _)

theorem str_append_ne_of_nth (p₁ q₁ p₂ q₂ : String) (i : Nat)
    (h₁ : i < p₁.data.length) (h₂ : i < p₂.data.length)
    (hne : p₁.data[i]? ≠ p₂.data[i]?) :
    p₁ ++ q₁ ≠ p₂ ++ q₂ := by
  intro hc
  have hd : p₁.data ++ q₁.data = p₂.data ++ q₂.data := by
    have h2 := congrArg String.data hc
    rwa [str_data_append, str_data_append] at h2
  apply hne
  rw [← List.getElem?_append_left h₁, ← List.getElem?_append_left h₂, hd]

namespace UploadBox

theorem sizeMsg_ne_empty (cfg : Config) : sizeLimitMessage cfg ≠ "" :=
  str_append_ne_empty _ _ (by decide)

theorem typeMsg_ne_empty (cfg : Config) : typeNotSupportedMessage cfg ≠ "" :=
  str_append_ne_empty _ _ (by decide)

theorem contentMsg_ne_empty : contentMismatchMessage ≠ "" := by decide

theorem sizeMsg_ne_typeMsg (cfg cfg₂ : Config) :
    sizeLimitMessage cfg ≠ typeNotSupportedMessage cfg₂ :=
  str_append_ne_of_nth _ _ _ _ 5 (by decide) (by decide) (by decide)

theorem sizeMsg_ne_contentMsg (cfg : Config) :
    sizeLimitMessage cfg ≠ contentMismatchMessage := by
  have h := str_append_ne_of_nth "File size exceeds "
    (toString (cfg.maxSize / (1024 * 1024)) ++ "MB limit")
    contentMismatchMessage "" 5 (by decide) (by decide) (by decide)
  rwa [str_append_empty] at h

theorem typeMsg_ne_contentMsg (cfg : Config) :
    typeNotSupportedMessage cfg ≠ contentMismatchMessage := by
  have h := str_append_ne_of_nth "File type not supported. Accepted: "
    (String.intercalate ", " cfg.acceptedTypes)
    contentMismatchMessage "" 5 (by decide) (by decide) (by decide)
  rwa [str_append_empty] at h

theorem validateFile_eq (cfg : Config) (f : FileData) :
    validateFile cfg f =
      if cfg.maxSize < f.size then sizeLimitMessage cfg
      else if typeOk cfg f = false then typeNotSupportedMessage cfg
      else if mimeOk f = false then contentMismatchMessage
      else "" := by
  by_cases hs : cfg.maxSize < f.size
  · simp [validateFile, typeOk, mimeOk, hs, gt_iff_lt]
  · by_cases ht : cfg.acceptedTypes.contains (fileExtension f.name)
    · cases h : mimeTypes (fileExtension f.name) with
      | none => simp [validateFile, typeOk, mimeOk, hs, ht, h, gt_iff_lt]
      | some m =>
          by_cases hm : strIncludes f.mime (mimeSubtype m) <;>
            simp [validateFile, typeOk, mimeOk, hs, ht, h, hm, gt_iff_lt]
    · have ht2 : ¬ (fileExtension f.name ∈ cfg.acceptedTypes) := by simpa using ht
      simp [validateFile, typeOk, mimeOk, hs, ht2, gt_iff_lt]

theorem validateFile_eq_empty_iff (cfg : Config) (f : FileData) :
    validateFile cfg f = "" ↔
      (f.size ≤ cfg.maxSize ∧ typeOk cfg f = true ∧ mimeOk f = true) := by
  rw [validateFile_eq]
  by_cases hs : cfg.maxSize < f.size
  · rw [if_pos hs]
    constructor
    · intro h; exact absurd h (sizeMsg_ne_empty cfg)
    · intro h; exact absurd h.1 (by omega)
  · rw [if_neg hs]
    by_cases ht : typeOk cfg f
    · rw [if_neg (by simp [ht])]
      by_cases hm : mimeOk f
      · rw [if_neg (by simp [hm])]
        simp only [ht, hm, and_true, true_iff, iff_true]
        omega
      · have hm2 : mimeOk f = false := by simpa using hm
        rw [if_pos hm2]
        constructor
        · intro h; exact absurd h contentMsg_ne_empty
        · intro h; rw [h.2.2] at hm2; cases hm2
    · have ht2 : typeOk cfg f = false := by simpa using ht
      rw [if_pos ht2]
      constructor
      · intro h; exact absurd h (typeMsg_ne_empty cfg)
      · intro h; rw [h.2.1] at ht2; cases ht2

theorem validateFile_of_size (cfg : Config) (f : FileData)
    (hs : cfg.maxSize < f.size) : validateFile cfg f = sizeLimitMessage cfg := by
  rw [validateFile_eq]; simp [hs]

theorem validateFile_of_type (cfg : Config) (f : FileData)
    (hs : f.size ≤ cfg.maxSize) (ht : typeOk cfg f = false) :
    validateFile cfg f = typeNotSupportedMessage cfg := by
  rw [validateFile_eq]; simp [Nat.not_lt.mpr hs, ht]

theorem validateFile_of_mime (cfg : Config) (f : FileData)
    (hs : f.size ≤ cfg.maxSize) (ht : typeOk cfg f = true) (hm : mimeOk f = false) :
    validateFile cfg f = contentMismatchMessage := by
  rw [validateFile_eq]; simp [Nat.not_lt.mpr hs, ht, hm]

end UploadBox

/-- C1: `UploadBox.validateFile` accepts (returns the empty string) iff
the file's size is at most the configured maximum AND its extension is in
the accepted-types allow-list AND its content type matches the extension's
expected MIME type; a file violating a check gets a non-empty error, and a
file violating exactly one check gets that check's specific message. -/
theorem c1_guardrail_accepts_iff (cfg : UploadBox.Config) (f : FileData) :
    (UploadBox.validateFile cfg f = "" ↔
      (f.size ≤ cfg.maxSize ∧ UploadBox.typeOk cfg f = true ∧ UploadBox.mimeOk f = true))
    ∧ (¬ (f.size ≤ cfg.maxSize ∧ UploadBox.typeOk cfg f = true ∧ UploadBox.mimeOk f = true) →
        UploadBox.validateFile cfg f ≠ "")
    ∧ (cfg.maxSize < f.size → UploadBox.typeOk cfg f = true → UploadBox.mimeOk f = true →
        UploadBox.validateFile cfg f = UploadBox.sizeLimitMessage cfg)
    ∧ (f.size ≤ cfg.maxSize → UploadBox.typeOk cfg f = false → UploadBox.mimeOk f = true →
        UploadBox.validateFile cfg f = UploadBox.typeNotSupportedMessage cfg)
    ∧ (f.size ≤ cfg.maxSize → UploadBox.typeOk cfg f = true → UploadBox.mimeOk f = false →
        UploadBox.validateFile cfg f = UploadBox.contentMismatchMessage) := by
  refine ⟨UploadBox.validateFile_eq_empty_iff cfg f, ?_, ?_, ?_, ?_⟩
  · intro h hc
    exact h ((UploadBox.validateFile_eq_empty_iff cfg f).1 hc)
  · intro hs _ _
    exact UploadBox.validateFile_of_size cfg f hs
  · intro hs ht _
    exact UploadBox.validateFile_of_type cfg f hs ht
  · intro hs ht hm
    exact UploadBox.validateFile_of_mime cfg f hs ht hm

/-- Witness for C1: the size check fires alone on an oversized but
otherwise well-formed upload, and a fully well-formed upload is
accepted. -/
theorem c1_guardrail_accepts_iff_witness :
    UploadBox.validateFile UploadBox.defaultConfig fileTooBig =
        UploadBox.sizeLimitMessage UploadBox.defaultConfig
    ∧ UploadBox.validateFile UploadBox.defaultConfig fileOkPdf = "" :=
  ⟨(c1_guardrail_accepts_iff UploadBox.defaultConfig fileTooBig).2.2.1
      (by decide) (by decide) (by decide),
    (c1_guardrail_accepts_iff UploadBox.defaultConfig fileOkPdf).1.mpr (by decide)⟩

/-- C2: the guardrail checks run in the order size, file type, content
match, short-circuiting on the first failure: an oversized file always
gets the size-limit message no matter what the other checks would say, and
the file-type message is only ever returned for files within the size
limit. -/
theorem c2_check_order (cfg : UploadBox.Config) (f : FileData) :
    (cfg.maxSize < f.size → UploadBox.validateFile cfg f = UploadBox.sizeLimitMessage cfg)
    ∧ (UploadBox.validateFile cfg f = UploadBox.typeNotSupportedMessage cfg →
        f.size ≤ cfg.maxSize) := by
  constructor
  · exact UploadBox.validateFile_of_size cfg f
  · intro h
    by_cases hs : cfg.maxSize < f.size
    · rw [UploadBox.validateFile_of_size cfg f hs] at h
      exact absurd h (UploadBox.sizeMsg_ne_typeMsg cfg cfg)
    · omega

/-- Witness for C2: a file that is both oversized and of an unaccepted
extension is reported with the size message, not the type message. -/
theorem c2_check_order_witness :
    UploadBox.validateFile UploadBox.defaultConfig fileTooBigBadType =
      UploadBox.sizeLimitMessage UploadBox.defaultConfig :=
  (c2_check_order UploadBox.defaultConfig fileTooBigBadType).1 (by decide)

/-- C3 counterexample: a `.pdf` upload whose actual bytes carry no PDF
signature (so any byte-level sniff would classify it as not-PDF) is
accepted by `validateFile` outright — the check never inspects the bytes,
only the browser-declared MIME string, so the claimed-vs-sniffed mismatch
is NOT reported as a failure. -/
theorem c3_counterexample :
    fileExtension fileFakePdf.name = ".pdf"
    ∧ sniffsAsPdf fileFakePdf.bytes = false
    ∧ UploadBox.validateFile UploadBox.defaultConfig fileFakePdf = "" := by
  refine ⟨by decide, by decide, by decide⟩

/-- C3 amended: for files with an allow-listed extension, the file-type
confirmation compares the extension's expected MIME subtype against the
browser-declared MIME string (`file.type`), not against the byte-level
content: a declared-MIME mismatch is reported as the content-mismatch
failure, and the validation outcome is entirely independent of the
file's bytes. -/
theorem c3_amended_declared_mime_check (cfg : UploadBox.Config) (f g : FileData) :
    (f.size ≤ cfg.maxSize → UploadBox.typeOk cfg f = true → UploadBox.mimeOk f = false →
      UploadBox.validateFile cfg f = UploadBox.contentMismatchMessage)
    ∧ (f.name = g.name → f.size = g.size → f.mime = g.mime →
      UploadBox.validateFile cfg f = UploadBox.validateFile cfg g) := by
  constructor
  · exact fun hs ht hm => UploadBox.validateFile_of_mime cfg f hs ht hm
  · intro hn hs hm
    obtain ⟨fn, fs, fm, fb⟩ := f
    obtain ⟨gn, gs, gm, gb⟩ := g
    dsimp only at hn hs hm
    subst hn
    subst hs
    subst hm
    rfl

/-- Witness for C3's amended statement: a declared-MIME mismatch is
reported on a concrete file, and two concrete files differing only in
bytes validate identically. -/
theorem c3_amended_declared_mime_check_witness :
    UploadBox.validateFile UploadBox.defaultConfig fileBadMime =
        UploadBox.contentMismatchMessage
    ∧ UploadBox.validateFile UploadBox.defaultConfig fileOkPdf =
        UploadBox.validateFile UploadBox.defaultConfig fileFakePdf :=
  ⟨(c3_amended_declared_mime_check UploadBox.defaultConfig fileBadMime fileBadMime).1
      (by decide) (by decide) (by decide),
    (c3_amended_declared_mime_check UploadBox.defaultConfig fileOkPdf fileFakePdf).2
      (by decide) (by decide) (by decide)⟩

/-- C8: guardrail validation is a pure, deterministic function of its
input: any two files agreeing on name, size and declared content type —
the only fields `validateFile` reads — validate to the same result
string; in the shallow embedding `validateFile` is a function, matching
the source, whose body only reads its arguments and mutates nothing. -/
theorem c8_validateFile_deterministic (cfg : UploadBox.Config) (f g : FileData)
    (hn : f.name = g.name) (hs : f.size = g.size) (hm : f.mime = g.mime) :
    UploadBox.validateFile cfg f = UploadBox.validateFile cfg g := by
  obtain ⟨fn, fs, fm, fb⟩ := f
  obtain ⟨gn, gs, gm, gb⟩ := g
  dsimp only at hn hs hm
  subst hn
  subst hs
  subst hm
  rfl

/-- Witness for C8: two concrete PNG uploads differing only in their
bytes validate identically. -/
theorem c8_validateFile_deterministic_witness :
    UploadBox.validateFile UploadBox.defaultConfig filePngA =
      UploadBox.validateFile UploadBox.defaultConfig filePngB :=
  c8_validateFile_deterministic UploadBox.defaultConfig filePngA filePngB rfl rfl rfl

namespace FileUploader

theorem jsSliceTo_length_le (stop : Int) (l : List FileData) (h : 0 ≤ stop) :
    (jsSliceTo stop l).length ≤ stop.toNat := by
  unfold jsSliceTo
  rw [if_pos h]
  exact List.length_take_le _ _

theorem handleFiles_files_eq (cfg : Config) (mkId : FileData → String)
    (files : List FUFile) (newFiles : List FileData) :
    (handleFiles cfg mkId files newFiles).files = files ∨
      (handleFiles cfg mkId files newFiles).files =
        files ++ ((jsSliceTo ((cfg.maxFiles : Int) - (files.length : Int)) newFiles).filter
            (fun f => (validateFile cfg f).isNone)).map
          (fun f => { file := f, id := mkId f }) := by
  unfold handleFiles
  dsimp only
  split
  · right; rfl
  · left; rfl

theorem handleFiles_callback_eq (cfg : Config) (mkId : FileData → String)
    (files : List FUFile) (newFiles : List FileData) (payload : List FUFile)
    (hcb : (handleFiles cfg mkId files newFiles).callback = some payload) :
    payload = (handleFiles cfg mkId files newFiles).files := by
  unfold handleFiles at hcb ⊢
  dsimp only at hcb ⊢
  split at hcb
  · simp only [Option.some_inj] at hcb
    split
    · exact hcb.symm
    · exact hcb.symm
  · cases hcb

theorem handleFiles_members_valid (cfg : Config) (mkId : FileData → String)
    (files : List FUFile) (newFiles : List FileData)
    (hstate : ∀ g ∈ files, validateFile cfg g.file = none) :
    ∀ x ∈ (handleFiles cfg mkId files newFiles).files,
      validateFile cfg x.file = none := by
  intro x hx
  rcases handleFiles_files_eq cfg mkId files newFiles with h | h
  · rw [h] at hx
    exact hstate x hx
  · rw [h] at hx
    rcases List.mem_append.mp hx with hx | hx
    · exact hstate x hx
    · obtain ⟨f, hf, rfl⟩ := List.mem_map.mp hx
      have hv := (List.mem_filter.mp hf).2
      simpa [Option.isNone_iff_eq_none] using hv

theorem handleFiles_length_le (cfg : Config) (mkId : FileData → String)
    (files : List FUFile) (newFiles : List FileData)
    (h : files.length ≤ cfg.maxFiles) :
    (handleFiles cfg mkId files newFiles).files.length ≤ cfg.maxFiles := by
  rcases handleFiles_files_eq cfg mkId files newFiles with heq | heq
  · rw [heq]; exact h
  · rw [heq]
    rw [List.length_append, List.length_map]
    have h0 : (0 : Int) ≤ (cfg.maxFiles : Int) - (files.length : Int) := by omega
    have hslice := jsSliceTo_length_le ((cfg.maxFiles : Int) - (files.length : Int)) newFiles h0
    have hfilter :
        ((jsSliceTo ((cfg.maxFiles : Int) - (files.length : Int)) newFiles).filter
            (fun f => (validateFile cfg f).isNone)).length ≤
          (jsSliceTo ((cfg.maxFiles : Int) - (files.length : Int)) newFiles).length :=
      List.length_filter_le _ _
    omega

theorem stepFU_inv (cfg : Config) (mkId : FileData → String)
    (files : List FUFile) (op : FUOp)
    (h1 : files.length ≤ cfg.maxFiles)
    (h2 : ∀ x ∈ files, validateFile cfg x.file = none) :
    (stepFU cfg mkId files op).length ≤ cfg.maxFiles ∧
      ∀ x ∈ stepFU cfg mkId files op, validateFile cfg x.file = none := by
  cases op with
  | handle incoming =>
      exact ⟨handleFiles_length_le cfg mkId files incoming h1,
        handleFiles_members_valid cfg mkId files incoming h2⟩
  | remove fileId =>
      constructor
      · exact le_trans (List.length_filter_le _ _) h1
      · intro x hx
        exact h2 x (List.mem_of_mem_filter hx)

end FileUploader

/-- C4: a file rejected by guardrail validation is never forwarded.
`UploadBox.handleFile` on a rejected file surfaces the error, clears the
selected-file state and does not invoke `onFileSelect`; and
`FileUploader.handleFiles`, from any state whose retained files all pass
validation, never includes a failing file in the list it passes to
`onFilesSelect`. -/
theorem c4_rejected_never_forwarded (ucfg : UploadBox.Config)
    (cfg : FileUploader.Config) (mkId : FileData → String) (f : FileData)
    (files : List FileUploader.FUFile) (newFiles : List FileData)
    (payload : List FileUploader.FUFile) :
    (UploadBox.validateFile ucfg f ≠ "" →
      (UploadBox.handleFile ucfg f).forwarded = none
      ∧ (UploadBox.handleFile ucfg f).file = none
      ∧ (UploadBox.handleFile ucfg f).error = UploadBox.validateFile ucfg f)
    ∧ ((∀ g ∈ files, FileUploader.validateFile cfg g.file = none) →
        FileUploader.validateFile cfg f ≠ none →
        (FileUploader.handleFiles cfg mkId files newFiles).callback = some payload →
        ∀ x ∈ payload, x.file ≠ f) := by
  constructor
  · intro h
    unfold UploadBox.handleFile
    rw [if_pos h]
    exact ⟨rfl, rfl, rfl⟩
  · intro hstate hf hcb x hx
    rw [FileUploader.handleFiles_callback_eq cfg mkId files newFiles payload hcb] at hx
    have hxv := FileUploader.handleFiles_members_valid cfg mkId files newFiles hstate x hx
    intro hc
    rw [hc] at hxv
    exact hf hxv

/-- Witness for C4: with the default config, a `.exe` upload is not
forwarded by `UploadBox`, and a drop of `[fileBadType, fileOkPdf]` onto an
empty `FileUploader` passes only the valid file on. -/
theorem c4_rejected_never_forwarded_witness :
    (UploadBox.handleFile UploadBox.defaultConfig fileBadType).forwarded = none
    ∧ ∀ x ∈ c4Payload, x.file ≠ fileBadType := by
  have h := c4_rejected_never_forwarded UploadBox.defaultConfig
    FileUploader.defaultConfig (fun f => f.name) fileBadType []
    [fileBadType, fileOkPdf] c4Payload
  exact ⟨(h.1 (by decide)).1,
    h.2 (by intro g hg; cases hg) (by decide) (by decide)⟩

/-- C9: from the empty initial state, after any sequence of
`handleFiles` / `removeFile` interactions the `FileUploader` state holds
at most `maxFiles` files (excess files in a drop are cut off by the
capacity slice before validation) and every retained file passes
`validateFile` with no error. -/
theorem c9_fileuploader_invariant (cfg : FileUploader.Config)
    (mkId : FileData → String) (ops : List FileUploader.FUOp) :
    (FileUploader.runFU cfg mkId ops).length ≤ cfg.maxFiles
    ∧ ∀ x ∈ FileUploader.runFU cfg mkId ops,
        FileUploader.validateFile cfg x.file = none := by
  unfold FileUploader.runFU
  suffices h : ∀ (files : List FileUploader.FUFile),
      files.length ≤ cfg.maxFiles →
      (∀ x ∈ files, FileUploader.validateFile cfg x.file = none) →
      (ops.foldl (FileUploader.stepFU cfg mkId) files).length ≤ cfg.maxFiles
      ∧ ∀ x ∈ ops.foldl (FileUploader.stepFU cfg mkId) files,
          FileUploader.validateFile cfg x.file = none by
    exact h [] (by simp) (by intro x hx; cases hx)
  induction ops with
  | nil => intro files h1 h2; exact ⟨h1, h2⟩
  | cons op rest ih =>
      intro files h1 h2
      rw [List.foldl_cons]
      obtain ⟨h1s, h2s⟩ := FileUploader.stepFU_inv cfg mkId files op h1 h2
      exact ih _ h1s h2s

/-- Witness for C9: a concrete drop of three files (one invalid, one
oversized) followed by a removal stays within the default limits. -/
theorem c9_fileuploader_invariant_witness :
    (FileUploader.runFU FileUploader.defaultConfig (fun f => f.name) c9Ops).length ≤
      FileUploader.defaultConfig.maxFiles :=
  (c9_fileuploader_invariant FileUploader.defaultConfig (fun f => f.name) c9Ops).1

/-- C5 counterexample: `needs_manual_review` is one of the terminal
statuses named by the claim, yet on a job carrying that status the
`useJob` refetch-interval function does NOT return false — it returns the
2000 ms default and keeps polling.  (The frontend `Job` status union has
no `needs_manual_review` member at all; the code stops only on
`completed` and `failed`.) -/
theorem c5_counterexample :
    "needs_manual_review" ∈ UseApi.specTerminalStatuses
    ∧ "needs_manual_review" ∉ UseApi.statusDeclared
    ∧ UseApi.refetchInterval
        (some { jobId := "job-1", status := "needs_manual_review", createdAt := "t" })
        none = some 2000 := by
  refine ⟨by decide, by decide, by decide⟩

/-- C5 amended: the `useJob` refetch-interval function returns false
(stops polling) iff the fetched status is `completed` or `failed` — the
only terminal statuses the frontend `Job` type has — and on any other
status returns a positive interval (the caller-supplied one, or the
2000 ms default), provided any caller-supplied interval is positive. -/
theorem c5_amended_polling (j : UseApi.Job) (opt : Option Nat)
    (hpos : ∀ n, opt = some n → 0 < n) :
    (UseApi.refetchInterval (some j) opt = none ↔
      (j.status = "completed" ∨ j.status = "failed"))
    ∧ (¬ (j.status = "completed" ∨ j.status = "failed") →
        ∃ n, UseApi.refetchInterval (some j) opt = some n ∧ 0 < n) := by
  by_cases h : j.status = "completed" ∨ j.status = "failed"
  · rcases h with h | h <;> simp [UseApi.refetchInterval, h]
  · have h1 : j.status ≠ "completed" := fun hc => h (Or.inl hc)
    have h2 : j.status ≠ "failed" := fun hc => h (Or.inr hc)
    constructor
    · simp [UseApi.refetchInterval, h1, h2]
    · intro _
      refine ⟨opt.getD 2000, by simp [UseApi.refetchInterval, h1, h2], ?_⟩
      cases opt with
      | none => simp
      | some m => simpa using hpos m rfl

/-- Witness for C5's amended statement: a `processing` job with the
default interval keeps polling. -/
theorem c5_amended_polling_witness :
    UseApi.refetchInterval (some { jobId := "j", status := "processing", createdAt := "t" })
        none = none ↔
      (("processing" : String) = "completed" ∨ ("processing" : String) = "failed") :=
  (c5_amended_polling { jobId := "j", status := "processing", createdAt := "t" }
    none (fun _ hn => nomatch hn)).1

/-- C6 counterexample: `warningFinding` is a well-typed `Finding` of the
API types module — its severity `'warning'` is a member of the declared
`'critical' | 'warning' | 'info'` union — yet that severity is not in the
four-level set critical/high/medium/low the claim asserts for every
finding. -/
theorem c6_counterexample :
    ApiTypes.warningFinding.severity.str ∉ ApiTypes.fourLevelSeveritySet := by
  decide

/-- C6 amended: the program has two severity vocabularies, not one.
Issues of `ValidationResult` (useApi.ts) draw severity from exactly the
four-level set critical/high/medium/low, while `Finding` values of the
API types module (src/unnamed/part_002) draw severity from exactly
`'critical' | 'warning' | 'info'`. -/
theorem c6_amended_severity_sets :
    (∀ s : UseApi.IssueSeverity, s.str ∈ ApiTypes.fourLevelSeveritySet)
    ∧ (∀ f : ApiTypes.Finding, f.severity.str ∈ ["critical", "warning", "info"]) := by
  constructor
  · intro s
    cases s <;> decide
  · intro f
    cases h : f.severity <;> decide

/-- Witness for C6's amended statement: a concrete issue severity from
useApi.ts lies in the four-level set. -/
theorem c6_amended_severity_sets_witness :
    UseApi.IssueSeverity.high.str ∈ ApiTypes.fourLevelSeveritySet :=
  c6_amended_severity_sets.1 UseApi.IssueSeverity.high

namespace OCROrchestrator

theorem foldl_spend_le (ceiling maxCost : Nat) :
    ∀ (costs : List Nat) (s : Nat), (∀ c ∈ costs, c ≤ maxCost) →
      s ≤ ceiling + maxCost →
      costs.foldl (fun t c => (trySecondary ceiling t c).1) s ≤ ceiling + maxCost := by
  intro costs
  induction costs with
  | nil => intro s _ hs; simpa using hs
  | cons c cs ih =>
      intro s hc hs
      rw [List.foldl_cons]
      refine ih _ (fun x hx => hc x (List.mem_cons_of_mem _ hx)) ?_
      have hcm : c ≤ maxCost := hc c (List.mem_cons_self _ _)
      unfold trySecondary
      split
      · next hlt => simp only; omega
      · exact hs

end OCROrchestrator

/-- C7 (spec-modelled): with the daily counter's check-and-increment
taken as atomic — as §4.2/§5 of the spec require — the secondary engine
is never invoked by a step that observes the ceiling already reached, and
over any interleaving of concurrent attempts (any sequence of atomic
steps) whose individual costs are bounded by `maxCost`, the day's
recorded spend never exceeds `ceiling + maxCost` (the ceiling plus one
in-flight call's cost). -/
theorem c7_spend_ceiling (ceiling maxCost : Nat) (costs : List Nat)
    (hc : ∀ c ∈ costs, c ≤ maxCost) :
    (∀ spend c, ceiling ≤ spend →
      (OCROrchestrator.trySecondary ceiling spend c).2 = false)
    ∧ OCROrchestrator.runDay ceiling costs ≤ ceiling + maxCost := by
  constructor
  · intro spend c h
    unfold OCROrchestrator.trySecondary
    rw [if_neg (by omega)]
  · exact OCROrchestrator.foldl_spend_le ceiling maxCost costs 0 hc (by omega)

/-- Witness for C7: four attempts of cost 4 against a ceiling of 10 spend
at most 14. -/
theorem c7_spend_ceiling_witness :
    OCROrchestrator.runDay 10 [4, 4, 4, 4] ≤ 10 + 4 :=
  (c7_spend_ceiling 10 4 [4, 4, 4, 4] (by decide)).2

/-- C10: with the show-all toggle off, the displayed issue list is
exactly the order-preserving sub-list of the job's issues whose severity
is critical or high; with the toggle on, it is the full list unchanged. -/
theorem c10_displayed_issues (issues : List UseApi.Issue) :
    ExporterResults.displayedIssues true issues = issues
    ∧ ExporterResults.displayedIssues false issues =
        issues.filter ExporterResults.isHighPriority
    ∧ List.Sublist (ExporterResults.displayedIssues false issues) issues
    ∧ ∀ i : UseApi.Issue,
        i ∈ ExporterResults.displayedIssues false issues ↔
          (i ∈ issues ∧ ExporterResults.isHighPriority i = true) := by
  refine ⟨rfl, rfl, ?_, ?_⟩
  · exact List.filter_sublist issues
  · intro i
    simp [ExporterResults.displayedIssues, ExporterResults.highPriorityIssues,
      List.mem_filter]

/-- Witness for C10: on a concrete two-issue list, toggle-off keeps
exactly the critical issue. -/
theorem c10_displayed_issues_witness :
    ExporterResults.displayedIssues false c10Issues =
      c10Issues.filter ExporterResults.isHighPriority :=
  (c10_displayed_issues c10Issues).2.1
